import Mathlib

/-!
Shallow embedding of the simulation core of the SpaceSimEngine repository
(2-D celestial-mechanics sandbox): the vector type, the celestial-body and
solar-system data model, the Newtonian and relativistic force models, the
three numerical integrators, and the physics-engine orchestrator.

Scalars of the Python source (floats) are modelled as rationals; the square
root (Python math.sqrt) is passed around as an explicit function parameter
so that every statement holds for an arbitrary square-root routine.
Object references (the parent back-reference of a body, the central star of
a system) are modelled as indices into the owning system's body list.
-/

/-- Embedding of utils/vectors.Vector2: a pair of scalars. -/
@[ext] structure Vec2 where
  x : ℚ
  y : ℚ
deriving DecidableEq, Repr

/-- Vector2.__add__. -/
def Vec2.add (a b : Vec2) : Vec2 := ⟨a.x + b.x, a.y + b.y⟩

/-- Vector2.__sub__. -/
def Vec2.sub (a b : Vec2) : Vec2 := ⟨a.x - b.x, a.y - b.y⟩

/-- Negation (spec-side helper, used to state accumulation of opposite forces). -/
def Vec2.neg (a : Vec2) : Vec2 := ⟨-a.x, -a.y⟩

/-- Vector2.__mul__ (vector times scalar). -/
def Vec2.mul (a : Vec2) (s : ℚ) : Vec2 := ⟨a.x * s, a.y * s⟩

/-- Vector2.__truediv__ (vector divided by scalar). -/
def Vec2.div (a : Vec2) (s : ℚ) : Vec2 := ⟨a.x / s, a.y / s⟩

instance : Add Vec2 := ⟨Vec2.add⟩
instance : Sub Vec2 := ⟨Vec2.sub⟩
instance : Neg Vec2 := ⟨Vec2.neg⟩
instance : Zero Vec2 := ⟨⟨0, 0⟩⟩
instance : HMul Vec2 ℚ Vec2 := ⟨Vec2.mul⟩
instance : HDiv Vec2 ℚ Vec2 := ⟨Vec2.div⟩

instance : AddCommGroup Vec2 where
  add := Vec2.add
  zero := ⟨0, 0⟩
  neg := Vec2.neg
  sub := Vec2.sub
  nsmul := nsmulRec
  zsmul := zsmulRec
  add_assoc a b c := by
    show Vec2.add (Vec2.add a b) c = Vec2.add a (Vec2.add b c)
    ext <;> simp [Vec2.add] <;> ring
  zero_add a := by
    show Vec2.add ⟨0, 0⟩ a = a
    ext <;> simp [Vec2.add]
  add_zero a := by
    show Vec2.add a ⟨0, 0⟩ = a
    ext <;> simp [Vec2.add]
  add_comm a b := by
    show Vec2.add a b = Vec2.add b a
    ext <;> simp [Vec2.add] <;> ring
  neg_add_cancel a := by
    show Vec2.add (Vec2.neg a) a = ⟨0, 0⟩
    ext <;> simp [Vec2.add, Vec2.neg]
  sub_eq_add_neg a b := by
    show Vec2.sub a b = Vec2.add a (Vec2.neg b)
    ext <;> simp [Vec2.add, Vec2.sub, Vec2.neg] <;> ring

/-- Vector2.magnitude, for a given square-root routine. -/
def Vec2.magnitude (sqrt : ℚ → ℚ) (v : Vec2) : ℚ := sqrt (v.x ^ 2 + v.y ^ 2)

/-- Vector2.normalize: returns the zero vector when the magnitude is not positive. -/
def Vec2.normalize (sqrt : ℚ → ℚ) (v : Vec2) : Vec2 :=
  let mag := Vec2.magnitude sqrt v
  if 0 < mag then ⟨v.x / mag, v.y / mag⟩ else ⟨0, 0⟩

/-- Vector2.distance. -/
def Vec2.dist (sqrt : ℚ → ℚ) (a b : Vec2) : ℚ :=
  sqrt ((a.x - b.x) ^ 2 + (a.y - b.y) ^ 2)

/-- Vector2.dot. -/
def Vec2.dot (a b : Vec2) : ℚ := a.x * b.x + a.y * b.y

/-- Python scalar * Vector2.  Vector2 defines __mul__ but no __rmul__, so when
the scalar is on the left the number type returns NotImplemented and the
interpreter finds no reflected product: the expression raises TypeError.
Modelled as the absent value. -/
def scalar_mul_Vector2 (s : ℚ) (v : Vec2) : Option Vec2 := none

/-- Embedding of bodies/celestial_body.CelestialBody.  The parent object
reference is modelled as an index into the owning system's body list. -/
structure Body where
  name : String
  body_type : String
  mass : ℚ
  radius : ℚ
  density : ℚ
  position : Vec2
  velocity : Vec2
  acceleration : Vec2
  previous_position : Vec2
  color : List ℤ
  trail_length : ℕ
  previous_positions : List Vec2
  parent : Option ℕ
  semi_major_axis : ℚ
  eccentricity : ℚ
  fixed_position : Bool
deriving DecidableEq, Repr

/-- CelestialBody.COLOR_MAP. -/
def COLOR_MAP : List (String × List ℤ) :=
  [(("star"), [255, 255, 100]), (("planet"), [100, 150, 255]),
   (("gas_giant"), [255, 150, 50]), (("moon"), [200, 200, 200]),
   (("asteroid"), [150, 100, 50]), (("comet"), [150, 200, 255]),
   (("black_hole"), [0, 0, 0])]

/-- CelestialBody.__init__ with its default field values. -/
def body_init (name body_type : String) : Body :=
  { name := name
    body_type := body_type
    mass := 1.0e24
    radius := 1.0e6
    density := 5514
    position := ⟨0, 0⟩
    velocity := ⟨0, 0⟩
    acceleration := ⟨0, 0⟩
    previous_position := ⟨0, 0⟩
    color := ((COLOR_MAP.find? (fun kv => kv.1 == body_type)).map (·.2)).getD [255, 255, 255]
    trail_length := 1000
    previous_positions := []
    parent := none
    semi_major_axis := 0
    eccentricity := 0
    fixed_position := false }

instance : Inhabited Body := ⟨body_init ("Unnamed Body") ("planet")⟩

/-- Modelled from the spec: physics/constants.py is not among the sources; the
engine defaults and the glossary give the Newtonian gravitational constant. -/
def G_NEWTONIAN : ℚ := 6.67430e-11

/-- Modelled from the spec: physics/constants.py is not among the sources; the
speed of light used by the black-hole radius computation elsewhere in the code. -/
def SPEED_OF_LIGHT : ℚ := 299792458

/-- Modelled from the spec: physics/constants.py is not among the sources; the
relativistic model uses the same shared gravitational constant. -/
def G_RELATIVITY : ℚ := G_NEWTONIAN

/-- NewtonianPhysics.calculate_gravity: softened inverse-square force of body2
on body1, together with the (unsoftened) separation distance. -/
def calculate_gravity (sqrt : ℚ → ℚ) (G soft : ℚ) (body1 body2 : Body) : Vec2 × ℚ :=
  let r := body2.position - body1.position
  let distance := Vec2.magnitude sqrt r
  let distance_sq := distance ^ 2 + soft ^ 2
  let force_magnitude := G * body1.mass * body2.mass / distance_sq
  let force := (Vec2.normalize sqrt r) * force_magnitude
  (force, distance)

/-- RelativisticPhysics.calculate_gravity: the Newtonian force of the parent
class with a post-hoc multiplicative correction.  Python's 0.5 and 0.1
multipliers are kept literally. -/
def relativistic_calculate_gravity (sqrt : ℚ → ℚ) (G soft c : ℚ)
    (enable_time_dilation : Bool) (body1 body2 : Body) : Vec2 × ℚ :=
  let nd := calculate_gravity sqrt G soft body1 body2
  let newtonian_force := nd.1
  let distance := nd.2
  if distance = 0 then (⟨0, 0⟩, 0)
  else
    let v_rel := body2.velocity - body1.velocity
    let v_mag := Vec2.magnitude sqrt v_rel
    let schwarzschild_radius := 2 * G * body1.mass / c ^ 2
    let beta := v_mag / c
    let gamma := if beta < 1 then 1 / sqrt (1 - beta ^ 2) else 1e10
    if enable_time_dilation ∧ schwarzschild_radius < distance then
      let time_dilation := 1 / sqrt (1 - schwarzschild_radius / distance)
      let correction := 1 + (gamma - 1) * 0.5 + (time_dilation - 1) * 0.1
      (newtonian_force * correction, distance)
    else
      (newtonian_force, distance)

/-- The pair traversal of NewtonianPhysics.calculate_all_forces: the nested
loops for i in range(n), for j in range(i+1, n). -/
def pair_list (n : ℕ) : List (ℕ × ℕ) :=
  (List.range n).flatMap (fun i => (List.range' (i + 1) (n - (i + 1))).map (fun j => (i, j)))

/-- One iteration of the inner loop body of calculate_all_forces: accumulate
the pair force on entry i and its opposite on entry j. -/
def accumulate_pair (f : ℕ × ℕ → Vec2) (forces : List Vec2) (ij : ℕ × ℕ) : List Vec2 :=
  let force := f ij
  let forces1 := forces.set ij.1 ((forces[ij.1]?).getD 0 + force)
  forces1.set ij.2 ((forces1[ij.2]?).getD 0 - force)

/-- NewtonianPhysics.calculate_all_forces, parametric in the pairwise force
routine (Python dispatches calculate_gravity dynamically, so the relativistic
model reuses this same traversal). -/
def calculate_all_forces (g : Body → Body → Vec2 × ℚ) (bodies : List Body) : List Vec2 :=
  (pair_list bodies.length).foldl
    (accumulate_pair fun ij => (g ((bodies[ij.1]?).getD default) ((bodies[ij.2]?).getD default)).1)
    (List.replicate bodies.length 0)

/-- The pair force field of adjust: force of bodies[j] on bodies[i] as computed
by the pairwise routine g (first component of calculate_gravity). -/
def pair_force (g : Body → Body → Vec2 × ℚ) (bodies : List Body) (i j : ℕ) : Vec2 :=
  (g ((bodies[i]?).getD default) ((bodies[j]?).getD default)).1

/-- The trail bookkeeping shared by all three integrators: append the (already
updated) position, then pop the oldest entry if the cap is exceeded. -/
def store_trail (body : Body) : Body :=
  let trail := body.previous_positions ++ [body.position]
  if body.trail_length < trail.length then
    { body with previous_positions := trail.tail }
  else
    { body with previous_positions := trail }

/-- EulerIntegrator.integrate. -/
def euler_integrate (body : Body) (net_force : Vec2) (dt : ℚ) : Body :=
  let acceleration := net_force / body.mass
  let velocity := body.velocity + acceleration * dt
  let position := body.position + velocity * dt
  store_trail { body with acceleration := acceleration, velocity := velocity, position := position }

/-- VerletIntegrator.integrate. -/
def verlet_integrate (body : Body) (net_force : Vec2) (dt : ℚ) : Body :=
  let old_position := body.position
  let acceleration := net_force / body.mass
  let new_position := body.position * (2 : ℚ) - body.previous_position + acceleration * dt ^ 2
  let velocity := (new_position - body.previous_position) / (2 * dt)
  store_trail { body with previous_position := old_position, position := new_position,
                          velocity := velocity, acceleration := acceleration }

/-- RK4Integrator.integrate (actually a two-stage scheme).  The slopes are
computed with legal vector-first products, but the combination step evaluates
2*k2_v and then 2*k2_p with the scalar on the left of a Vector2, so the method
raises before assigning velocity or position or touching the trail; the
unreached remainder of the method body is kept under the matches. -/
def rk4_integrate (body : Body) (net_force : Vec2) (dt : ℚ) : Option Body :=
  let k1_v := net_force / body.mass * dt
  let k1_p := body.velocity * dt
  let mid_force := net_force
  let k2_v := mid_force / body.mass * dt
  let k2_p := (body.velocity + k1_v / (2 : ℚ)) * dt
  match scalar_mul_Vector2 2 k2_v with
  | none => none
  | some twice_k2_v =>
    let velocity := body.velocity + (k1_v + twice_k2_v) / (3 : ℚ)
    match scalar_mul_Vector2 2 k2_p with
    | none => none
    | some twice_k2_p =>
      let position := body.position + (k1_p + twice_k2_p) / (3 : ℚ)
      some (store_trail { body with velocity := velocity, position := position,
                                    acceleration := net_force / body.mass })

/-- The record returned by CelestialBody.get_orbital_elements. -/
structure OrbitalElements where
  eccentricity : ℚ
  semi_major_axis : ℚ
  angular_momentum : ℚ
deriving DecidableEq, Repr

/-- CelestialBody.get_orbital_elements.  Without a central body it returns the
absent result and leaves the body untouched.  With a central body, the
eccentricity-vector expression multiplies two scalars by a Vector2 with the
scalar on the left, so the method raises before caching anything or returning;
the unreached remainder of the method body is kept under the matches.  The
overall absent value is the propagated exception; the inner option is the
method's own None result. -/
def get_orbital_elements (sqrt : ℚ → ℚ) (self : Body) (central_body : Option Body) :
    Option (Option OrbitalElements × Body) :=
  match central_body with
  | none => some (none, self)
  | some cb =>
    let r := self.position - cb.position
    let v := self.velocity - cb.velocity
    let h : Vec2 := ⟨r.x * v.y - r.y * v.x, 0⟩
    let mu := 6.67430e-11 * (self.mass + cb.mass)
    match scalar_mul_Vector2 (Vec2.magnitude sqrt v ^ 2 - mu / Vec2.magnitude sqrt r) r with
    | none => none
    | some t1 =>
      match scalar_mul_Vector2 (Vec2.dot r v) v with
      | none => none
      | some t2 =>
        let e_vec := (t1 - t2) / mu
        let self1 := { self with eccentricity := Vec2.magnitude sqrt e_vec }
        let self2 :=
          if self1.eccentricity ≠ 1 then
            let energy := Vec2.magnitude sqrt v ^ 2 / 2 - mu / Vec2.magnitude sqrt r
            { self1 with semi_major_axis := -mu / (2 * energy) }
          else self1
        some (some ⟨self2.eccentricity, self2.semi_major_axis, Vec2.magnitude sqrt h⟩, self2)

/-- Embedding of bodies/celestial_body.SolarSystem.  The central-star object
reference is an index into the body list. -/
structure SolarSystem where
  name : String
  bodies : List Body
  central_star : Option ℕ
  time : ℚ
  timestep : ℚ
deriving DecidableEq

/-- SolarSystem.add_body: append the body; promote it to central star (forcing
its fixed-position flag) when requested or when it is the first star. -/
def add_body (s : SolarSystem) (body : Body) (set_as_central : Bool) : SolarSystem :=
  if set_as_central || (body.body_type == ("star") && s.central_star == none) then
    { s with bodies := s.bodies ++ [{ body with fixed_position := true }],
             central_star := some s.bodies.length }
  else
    { s with bodies := s.bodies ++ [body] }

/-- SolarSystem.calculate_total_energy: kinetic terms plus pairwise potential
terms, skipping pairs at zero distance. -/
def calculate_total_energy (sqrt : ℚ → ℚ) (s : SolarSystem) : ℚ :=
  (List.range s.bodies.length).foldl (fun total i =>
    let body1 := (s.bodies[i]?).getD default
    let v2 := Vec2.magnitude sqrt body1.velocity ^ 2
    let kinetic := 0.5 * body1.mass * v2
    let total1 := total + kinetic
    ((List.range s.bodies.length).drop (i + 1)).foldl (fun t j =>
      let body2 := (s.bodies[j]?).getD default
      let d := Vec2.dist sqrt body1.position body2.position
      if 0 < d then t + (-(6.67430e-11) * body1.mass * body2.mass / d) else t) total1) 0

/-- The dictionary produced by CelestialBody.to_dict (the persisted schema of
one body; the parent reference is stored by name). -/
structure BodyDict where
  name : String
  body_type : String
  mass : ℚ
  radius : ℚ
  density : ℚ
  position : Vec2
  velocity : Vec2
  color : List ℤ
  fixed_position : Bool
  parent : Option String
deriving DecidableEq

/-- The dictionary produced by SolarSystem.to_dict. -/
structure SystemDict where
  name : String
  time : ℚ
  timestep : ℚ
  bodies : List BodyDict
  central_star : Option String
deriving DecidableEq

instance : Inhabited BodyDict :=
  ⟨{ name := "", body_type := "", mass := 0, radius := 0, density := 0, position := ⟨0, 0⟩,
     velocity := ⟨0, 0⟩, color := [], fixed_position := false, parent := none }⟩

/-- CelestialBody.to_dict.  The owning system's body list is passed in to
translate the parent object reference (an index in this embedding) to a name. -/
def body_to_dict (all : List Body) (b : Body) : BodyDict :=
  { name := b.name
    body_type := b.body_type
    mass := b.mass
    radius := b.radius
    density := b.density
    position := b.position
    velocity := b.velocity
    color := b.color
    fixed_position := b.fixed_position
    parent := b.parent.bind (fun i => (all[i]?).map (·.name)) }

/-- SolarSystem.to_dict. -/
def system_to_dict (s : SolarSystem) : SystemDict :=
  { name := s.name
    time := s.time
    timestep := s.timestep
    bodies := s.bodies.map (body_to_dict s.bodies)
    central_star := s.central_star.bind (fun i => (s.bodies[i]?).map (·.name)) }

/-- CelestialBody.from_dict as invoked by the system loader (no bodies_dict
argument, so the parent link is left unresolved for the second pass). -/
def body_from_dict (d : BodyDict) : Body :=
  let body := body_init d.name d.body_type
  { body with mass := d.mass, radius := d.radius, density := d.density,
              position := d.position, velocity := d.velocity, color := d.color,
              fixed_position := d.fixed_position }

/-- Lookup in the name-keyed table built during loading.  Later insertions are
consed in front, so taking the first hit mirrors Python dict overwriting. -/
def dict_get (entries : List (String × ℕ)) (key : String) : Option ℕ :=
  (entries.find? (fun kv => kv.1 == key)).map (·.2)

/-- The first pass of SolarSystem.from_dict: construct every body, add it to
the system and record it in the name-keyed table. -/
def from_dict_pass1 (start : SolarSystem × List (String × ℕ)) (ds : List BodyDict) :
    SolarSystem × List (String × ℕ) :=
  ds.foldl (fun acc d =>
    let body := body_from_dict d
    let s := add_body acc.1 body false
    (s, (d.name, s.bodies.length - 1) :: acc.2)) start

/-- One iteration of the second pass of SolarSystem.from_dict: when the stored
parent name is truthy, look the owning body up by name and point its parent at
the table entry for the parent name (an absent name resolves to no parent). -/
def from_dict_pass2_step (table : List (String × ℕ)) (bs : List Body) (d : BodyDict) :
    List Body :=
  match d.parent with
  | some pname =>
    if pname ≠ "" then
      match dict_get table d.name with
      | some ti => bs.set ti { (bs[ti]?).getD default with parent := dict_get table pname }
      | none => bs
    else bs
  | none => bs

/-- The second pass of SolarSystem.from_dict over every stored body. -/
def from_dict_pass2 (table : List (String × ℕ)) (ds : List BodyDict) (bodies : List Body) :
    List Body :=
  ds.foldl (from_dict_pass2_step table) bodies

/-- The empty system the loader starts from (the cls(data[name]) constructor
call with the stored clock and timestep). -/
def from_dict_start (d : SystemDict) : SolarSystem :=
  { name := d.name, bodies := [], central_star := none,
    time := d.time, timestep := d.timestep }

/-- SolarSystem.from_dict: two-pass reconstruction, then central-star lookup. -/
def system_from_dict (d : SystemDict) : SolarSystem :=
  let s0 := from_dict_start d
  let step1 := from_dict_pass1 (s0, []) d.bodies
  let s1 := step1.1
  let table := step1.2
  let s2 := { s1 with bodies := from_dict_pass2 table d.bodies s1.bodies }
  match d.central_star with
  | some cname => if cname ≠ "" then { s2 with central_star := dict_get table cname } else s2
  | none => s2

/-- The integrator strategy objects registered by the engine. -/
inductive IntegratorKind
  | euler
  | verlet
  | rk4
deriving DecidableEq, Repr

/-- Dynamic dispatch of Integrator.integrate; the result is absent when the
integrator raises. -/
def integrate_with : IntegratorKind → Body → Vec2 → ℚ → Option Body
  | .euler => fun body net_force dt => some (euler_integrate body net_force dt)
  | .verlet => fun body net_force dt => some (verlet_integrate body net_force dt)
  | .rk4 => rk4_integrate

/-- The per-body loop of PhysicsEngine.update: integrate every non-fixed body
in order with its force; an exception raised by the integrator aborts the
tick. -/
def integrate_bodies (ik : IntegratorKind) (scaled_dt : ℚ) :
    List (Body × Vec2) → Option (List Body)
  | [] => some []
  | bf :: rest =>
    if bf.1.fixed_position then
      match integrate_bodies ik scaled_dt rest with
      | none => none
      | some bs => some (bf.1 :: bs)
    else
      match integrate_with ik bf.1 bf.2 scaled_dt with
      | none => none
      | some b1 =>
        match integrate_bodies ik scaled_dt rest with
        | none => none
        | some bs => some (b1 :: bs)

/-- The state of one registered force model (NewtonianPhysics, or the derived
RelativisticPhysics when the relativistic flag is set). -/
structure PhysModel where
  G : ℚ
  softening_length : ℚ
  relativistic : Bool
  c : ℚ
  enable_time_dilation : Bool
deriving DecidableEq, Repr

/-- Dynamic dispatch of calculate_gravity over the model's concrete class. -/
def model_gravity (sqrt : ℚ → ℚ) (m : PhysModel) : Body → Body → Vec2 × ℚ :=
  if m.relativistic then
    relativistic_calculate_gravity sqrt m.G m.softening_length m.c m.enable_time_dilation
  else
    calculate_gravity sqrt m.G m.softening_length

/-- Embedding of physics/engine.PhysicsEngine.  Wall-clock performance fields
(start_time, computation_time, avg_fps) are outside the embedding; the active
system is held by value. -/
structure PhysicsEngine where
  physics_models : List (String × PhysModel)
  current_physics : String
  integrators : List (String × IntegratorKind)
  current_integrator : String
  active_system : Option SolarSystem
  is_running : Bool
  is_paused : Bool
  frame_count : ℕ
  time_scale : ℚ
  gravitational_constant : ℚ
  total_energy : ℚ
deriving DecidableEq

/-- Registry lookup by string key (Python dict membership and subscript). -/
def registry_find {α : Type} (entries : List (String × α)) (key : String) : Option α :=
  (entries.find? (fun kv => kv.1 == key)).map (·.2)

/-- PhysicsEngine.__init__. -/
def engine_init : PhysicsEngine :=
  { physics_models :=
      [(("newtonian"),
        { G := G_NEWTONIAN, softening_length := 1e3, relativistic := false,
          c := SPEED_OF_LIGHT, enable_time_dilation := false }),
       (("relativistic"),
        { G := G_RELATIVITY, softening_length := 1e3, relativistic := true,
          c := SPEED_OF_LIGHT, enable_time_dilation := true })]
    current_physics := "newtonian"
    integrators := [(("euler"), .euler), (("verlet"), .verlet), (("rk4"), .rk4)]
    current_integrator := "verlet"
    active_system := none
    is_running := false
    is_paused := false
    frame_count := 0
    time_scale := 1
    gravitational_constant := 6.67430e-11
    total_energy := 0 }

/-- PhysicsEngine.set_physics_model: switch only when the key is registered,
propagating the engine's gravitational constant into the chosen model. -/
def set_physics_model (e : PhysicsEngine) (model_name : String) : PhysicsEngine :=
  if (registry_find e.physics_models model_name).isSome then
    { e with current_physics := model_name,
             physics_models := e.physics_models.map (fun kv =>
               if kv.1 == model_name then (kv.1, { kv.2 with G := e.gravitational_constant })
               else kv) }
  else e

/-- PhysicsEngine.set_integrator: switch only when the key is registered. -/
def set_integrator (e : PhysicsEngine) (integrator_name : String) : PhysicsEngine :=
  if (registry_find e.integrators integrator_name).isSome then
    { e with current_integrator := integrator_name }
  else e

/-- PhysicsEngine.update: one tick.  A no-op without an active running
unpaused system; otherwise forces are computed once and every non-fixed body
is integrated in order with its force and the scaled timestep.  The clock
advance and the statistics refresh come after the loop, so an exception from
an integrator propagates and leaves the clock untouched; the absent result is
that propagated exception. -/
def engine_update (sqrt : ℚ → ℚ) (e : PhysicsEngine) (dt : ℚ) : Option PhysicsEngine :=
  match e.active_system with
  | none => some e
  | some sys =>
    if e.is_running = false ∨ e.is_paused = true then some e
    else
      match registry_find e.physics_models e.current_physics,
            registry_find e.integrators e.current_integrator with
      | some physics_model, some integrator_kind =>
        let scaled_dt := dt * e.time_scale * sys.timestep
        let bodies := sys.bodies
        let forces := calculate_all_forces (model_gravity sqrt physics_model) bodies
        match integrate_bodies integrator_kind scaled_dt (bodies.zip forces) with
        | none => none
        | some bodies1 =>
          let sys1 := { sys with bodies := bodies1, time := sys.time + scaled_dt }
          some { e with active_system := some sys1,
                        total_energy := calculate_total_energy sqrt sys1,
                        frame_count := e.frame_count + 1 }
      | _, _ => some e

/-- Agreement of the serialized per-body fields (and the parent reference)
between two bodies; the round-trip theorem is stated with this relation. -/
def body_core_eq (a b : Body) : Prop :=
  a.name = b.name ∧ a.mass = b.mass ∧ a.position = b.position
  ∧ a.velocity = b.velocity ∧ a.color = b.color ∧ a.parent = b.parent

/-- The effect of one second-pass iteration on the parent field of the body at
index i (no effect unless this dictionary entry owns exactly that body). -/
def parent_update (table : List (String × ℕ)) (i : ℕ) (d : BodyDict) (p0 : Option ℕ) :
    Option ℕ :=
  match d.parent with
  | some pname =>
    if pname ≠ "" then
      match dict_get table d.name with
      | some ti => if ti = i then dict_get table pname else p0
      | none => p0
    else p0
  | none => p0

/-- The accumulated effect of the whole second pass on the parent field of the
body at index i. -/
def parent_after (table : List (String × ℕ)) (ds : List BodyDict) (i : ℕ) (p0 : Option ℕ) :
    Option ℕ :=
  ds.foldl (fun p d => parent_update table i d p) p0

/-- A second-pass iteration rewrites the parent of the body at index i exactly
when its stored parent name is truthy and the name table maps its own name to
index i. -/
def fires (table : List (String × ℕ)) (i : ℕ) (d : BodyDict) : Prop :=
  ∃ pname, d.parent = some pname ∧ pname ≠ "" ∧ dict_get table d.name = some i

/-- A two-body system whose second body (the parent of the first) carries the
empty string as its name. -/
def cex_system : SolarSystem :=
  { name := ("cex"), central_star := none, time := 0, timestep := 3600,
    bodies := [{ body_init ("a") ("planet") with parent := some 1 },
               body_init ("") ("planet")] }

/-- A three-body system (one body with a parent link that appears later in the
list) with distinct nonempty names, used to instantiate the round-trip
theorem. -/
def rt_system : SolarSystem :=
  { name := ("rt"), central_star := some 2, time := 5, timestep := 3600,
    bodies := [{ body_init ("planet") ("planet") with parent := some 2 },
               { body_init ("moon") ("moon") with parent := some 0 },
               body_init ("star") ("star")] }

/-- A concrete body used to instantiate hypotheses of the integrator theorems. -/
def wbody : Body :=
  { body_init ("w") ("planet") with
    mass := 2, position := ⟨1, 2⟩, previous_position := ⟨0, 1⟩, velocity := ⟨3, 4⟩ }

/-- A concrete net force used by the witnesses. -/
def wforce : Vec2 := ⟨6, 0⟩

/-- A concrete timestep used by the witnesses. -/
def wdt : ℚ := 1

/-- A concrete system used by the engine witnesses. -/
def wsystem : SolarSystem :=
  { name := ("ws"), bodies := [], central_star := none, time := 0, timestep := 3600 }

/-- A running engine with an active system. -/
def wengine : PhysicsEngine :=
  { engine_init with active_system := some wsystem, is_running := true }

/-- The system wsystem holding one non-fixed body. -/
def wsystem1 : SolarSystem := { wsystem with bodies := [wbody] }

/-- A running, unpaused engine with the rk4 integrator selected and an active
system containing one non-fixed body. -/
def wengine_rk4 : PhysicsEngine :=
  { wengine with current_integrator := ("rk4"), active_system := some wsystem1 }

/-! ## Theorems -/

@[simp] theorem Vec2.add_x (a b : Vec2) : (a + b).x = a.x + b.x := rfl

@[simp] theorem Vec2.add_y (a b : Vec2) : (a + b).y = a.y + b.y := rfl

@[simp] theorem Vec2.sub_x (a b : Vec2) : (a - b).x = a.x - b.x := rfl

@[simp] theorem Vec2.sub_y (a b : Vec2) : (a - b).y = a.y - b.y := rfl

@[simp] theorem Vec2.neg_x (a : Vec2) : (-a).x = -a.x := rfl

@[simp] theorem Vec2.neg_y (a : Vec2) : (-a).y = -a.y := rfl

@[simp] theorem Vec2.mul_x (a : Vec2) (s : ℚ) : (a * s).x = a.x * s := rfl

@[simp] theorem Vec2.mul_y (a : Vec2) (s : ℚ) : (a * s).y = a.y * s := rfl

@[simp] theorem Vec2.div_x (a : Vec2) (s : ℚ) : (a / s).x = a.x / s := rfl

@[simp] theorem Vec2.div_y (a : Vec2) (s : ℚ) : (a / s).y = a.y / s := rfl

@[simp] theorem Vec2.zero_x : (0 : Vec2).x = 0 := rfl

@[simp] theorem Vec2.zero_y : (0 : Vec2).y = 0 := rfl

@[simp] theorem store_trail_position (b : Body) : (store_trail b).position = b.position := by
  simp only [store_trail]; split <;> rfl

@[simp] theorem store_trail_velocity (b : Body) : (store_trail b).velocity = b.velocity := by
  simp only [store_trail]; split <;> rfl

@[simp] theorem store_trail_acceleration (b : Body) :
    (store_trail b).acceleration = b.acceleration := by
  simp only [store_trail]; split <;> rfl

@[simp] theorem store_trail_previous_position (b : Body) :
    (store_trail b).previous_position = b.previous_position := by
  simp only [store_trail]; split <;> rfl

@[simp] theorem store_trail_mass (b : Body) : (store_trail b).mass = b.mass := by
  simp only [store_trail]; split <;> rfl

@[simp] theorem store_trail_cap (b : Body) : (store_trail b).trail_length = b.trail_length := by
  simp only [store_trail]; split <;> rfl

theorem store_trail_previous_positions (b : Body) :
    (store_trail b).previous_positions =
      if b.trail_length < (b.previous_positions ++ [b.position]).length
      then (b.previous_positions ++ [b.position]).tail
      else b.previous_positions ++ [b.position] := by
  simp only [store_trail]; split <;> rfl

theorem store_trail_spec (b : Body) (hcap : b.previous_positions.length ≤ b.trail_length) :
    (store_trail b).previous_positions
      = (if b.trail_length < (b.previous_positions ++ [b.position]).length
         then (b.previous_positions ++ [b.position]).tail
         else b.previous_positions ++ [b.position])
    ∧ (store_trail b).previous_positions.length ≤ b.trail_length := by
  refine ⟨store_trail_previous_positions b, ?_⟩
  rw [store_trail_previous_positions]
  split <;> simp_all

theorem integrate_trail_spec (b0 body : Body)
    (h1 : b0.previous_positions = body.previous_positions)
    (h2 : b0.trail_length = body.trail_length)
    (hcap : body.previous_positions.length ≤ body.trail_length) :
    (store_trail b0).previous_positions
      = (if body.trail_length < (body.previous_positions ++ [(store_trail b0).position]).length
         then (body.previous_positions ++ [(store_trail b0).position]).tail
         else body.previous_positions ++ [(store_trail b0).position])
    ∧ (store_trail b0).previous_positions.length ≤ body.trail_length := by
  rw [store_trail_position, ← h1, ← h2]
  exact store_trail_spec b0 (by rw [h1, h2]; exact hcap)

/-- C2: for a body with positive mass and a positive timestep, one Verlet step
sets position to 2 pos - prev + (force/mass) dt^2, back-derives velocity as
(newPos - prev)/(2 dt) from the previously stored position, and stores the
pre-update position in previous_position. -/
theorem verlet_step_spec (body : Body) (net_force : Vec2) (dt : ℚ)
    (hm : 0 < body.mass) (hdt : 0 < dt) :
    (verlet_integrate body net_force dt).position
        = body.position * (2 : ℚ) - body.previous_position + (net_force / body.mass) * dt ^ 2
    ∧ (verlet_integrate body net_force dt).velocity
        = ((body.position * (2 : ℚ) - body.previous_position + (net_force / body.mass) * dt ^ 2)
            - body.previous_position) / (2 * dt)
    ∧ (verlet_integrate body net_force dt).previous_position = body.position := by
  refine ⟨?_, ?_, ?_⟩ <;> simp [verlet_integrate]

theorem verlet_step_spec_witness :
    0 < wbody.mass ∧ 0 < wdt
    ∧ ((verlet_integrate wbody wforce wdt).position
        = wbody.position * (2 : ℚ) - wbody.previous_position
          + (wforce / wbody.mass) * wdt ^ 2
       ∧ (verlet_integrate wbody wforce wdt).velocity
        = ((wbody.position * (2 : ℚ) - wbody.previous_position
            + (wforce / wbody.mass) * wdt ^ 2) - wbody.previous_position)
            / (2 * wdt)
       ∧ (verlet_integrate wbody wforce wdt).previous_position = wbody.position) :=
  ⟨by norm_num [wbody], by norm_num [wdt],
   verlet_step_spec wbody wforce wdt (by norm_num [wbody]) (by norm_num [wdt])⟩

/-- C5: the two-stage RK integrator never performs its claimed update: after
computing the slopes it evaluates 2*k2_v (scalar on the left of a Vector2,
which has no reflected product), so every call raises a TypeError before any
velocity, position or trail change. -/
theorem rk4_integrate_raises (body : Body) (net_force : Vec2) (dt : ℚ) :
    rk4_integrate body net_force dt = none := rfl

/-- C10: one Euler step always completes and yields velocity + (force/mass)*dt,
while a two-stage RK step raises at 2*k2_v and produces no velocity at all, so
no velocity of an RK step can equal Euler's. -/
theorem rk4_no_velocity_produced (body : Body) (net_force : Vec2) (dt : ℚ) :
    rk4_integrate body net_force dt = none
    ∧ (euler_integrate body net_force dt).velocity
        = body.velocity + net_force / body.mass * dt :=
  ⟨rfl, by simp [euler_integrate]⟩

/-- C8: starting from a trail within its cap, the Euler and Verlet integrators
append exactly the post-update position to the trail, evicting the oldest
entry when the cap is exceeded, so the trail stays within the cap; the
two-stage RK integrator instead raises at 2*k2_v before reaching its
trail-append lines and never appends anything. -/
theorem integrator_trail_bounded (body : Body) (net_force : Vec2) (dt : ℚ)
    (hcap : body.previous_positions.length ≤ body.trail_length) :
    ((euler_integrate body net_force dt).previous_positions
        = (if body.trail_length
             < (body.previous_positions
                 ++ [(euler_integrate body net_force dt).position]).length
           then (body.previous_positions
                 ++ [(euler_integrate body net_force dt).position]).tail
           else body.previous_positions ++ [(euler_integrate body net_force dt).position])
      ∧ (euler_integrate body net_force dt).previous_positions.length ≤ body.trail_length)
    ∧ ((verlet_integrate body net_force dt).previous_positions
        = (if body.trail_length
             < (body.previous_positions
                 ++ [(verlet_integrate body net_force dt).position]).length
           then (body.previous_positions
                 ++ [(verlet_integrate body net_force dt).position]).tail
           else body.previous_positions ++ [(verlet_integrate body net_force dt).position])
      ∧ (verlet_integrate body net_force dt).previous_positions.length ≤ body.trail_length)
    ∧ rk4_integrate body net_force dt = none :=
  ⟨integrate_trail_spec _ body rfl rfl hcap, integrate_trail_spec _ body rfl rfl hcap, rfl⟩

theorem integrator_trail_bounded_witness :
    wbody.previous_positions.length ≤ wbody.trail_length
    ∧ (((euler_integrate wbody wforce wdt).previous_positions
          = (if wbody.trail_length
               < (wbody.previous_positions
                   ++ [(euler_integrate wbody wforce wdt).position]).length
             then (wbody.previous_positions
                   ++ [(euler_integrate wbody wforce wdt).position]).tail
             else wbody.previous_positions ++ [(euler_integrate wbody wforce wdt).position])
        ∧ (euler_integrate wbody wforce wdt).previous_positions.length ≤ wbody.trail_length)
       ∧ ((verlet_integrate wbody wforce wdt).previous_positions
          = (if wbody.trail_length
               < (wbody.previous_positions
                   ++ [(verlet_integrate wbody wforce wdt).position]).length
             then (wbody.previous_positions
                   ++ [(verlet_integrate wbody wforce wdt).position]).tail
             else wbody.previous_positions ++ [(verlet_integrate wbody wforce wdt).position])
        ∧ (verlet_integrate wbody wforce wdt).previous_positions.length ≤ wbody.trail_length)
       ∧ rk4_integrate wbody wforce wdt = none) :=
  ⟨by norm_num [wbody, body_init],
   integrator_trail_bounded wbody wforce wdt (by norm_num [wbody, body_init])⟩

/-- C9: selecting a physics model or an integrator by an unregistered key
leaves the engine untouched; selecting a registered key switches the current
selection to that key. -/
theorem strategy_selection_spec (e : PhysicsEngine) (key : String) :
    (registry_find e.physics_models key = none → set_physics_model e key = e)
    ∧ ((registry_find e.physics_models key).isSome = true →
        (set_physics_model e key).current_physics = key)
    ∧ (registry_find e.integrators key = none → set_integrator e key = e)
    ∧ ((registry_find e.integrators key).isSome = true →
        (set_integrator e key).current_integrator = key) := by
  refine ⟨fun h => ?_, fun h => ?_, fun h => ?_, fun h => ?_⟩ <;>
    simp [set_physics_model, set_integrator, h]

theorem strategy_selection_spec_witness :
    (registry_find engine_init.physics_models ("nonsense") = none
      ∧ set_physics_model engine_init ("nonsense") = engine_init)
    ∧ ((registry_find engine_init.physics_models ("relativistic")).isSome = true
      ∧ (set_physics_model engine_init ("relativistic")).current_physics = "relativistic")
    ∧ (registry_find engine_init.integrators ("nonsense") = none
      ∧ set_integrator engine_init ("nonsense") = engine_init)
    ∧ ((registry_find engine_init.integrators ("euler")).isSome = true
      ∧ (set_integrator engine_init ("euler")).current_integrator = "euler") :=
  ⟨⟨by rfl, (strategy_selection_spec engine_init ("nonsense")).1 (by rfl)⟩,
   ⟨by rfl, (strategy_selection_spec engine_init ("relativistic")).2.1 (by rfl)⟩,
   ⟨by rfl, (strategy_selection_spec engine_init ("nonsense")).2.2.1 (by rfl)⟩,
   ⟨by rfl, (strategy_selection_spec engine_init ("euler")).2.2.2 (by rfl)⟩⟩

theorem newtonian_force_zero_of_distance_zero (sqrt : ℚ → ℚ) (G soft : ℚ) (b1 b2 : Body)
    (hd : (calculate_gravity sqrt G soft b1 b2).2 = 0) :
    (calculate_gravity sqrt G soft b1 b2).1 = (⟨0, 0⟩ : Vec2) := by
  have hmag : Vec2.magnitude sqrt (b2.position - b1.position) = 0 := hd
  simp only [calculate_gravity, Vec2.normalize, hmag]
  rw [if_neg (by norm_num)]
  apply Vec2.ext <;> simp

/-- C3: the relativistic pairwise force is the Newtonian force multiplied by
1 + (gamma - 1) 0.5 + (dilation - 1) 0.1 exactly when time dilation is enabled
and the separation exceeds the Schwarzschild radius of body1's mass, and the
unchanged Newtonian force otherwise; gamma is 1/sqrt(1 - beta^2) for beta < 1
and the finite sentinel 1e10 for beta >= 1. -/
theorem relativistic_correction_spec (sqrt : ℚ → ℚ) (G soft c : ℚ) (etd : Bool)
    (b1 b2 : Body) :
    relativistic_calculate_gravity sqrt G soft c etd b1 b2
      = (if etd ∧ 2 * G * b1.mass / c ^ 2 < (calculate_gravity sqrt G soft b1 b2).2 then
           ((calculate_gravity sqrt G soft b1 b2).1 *
             (1 + ((if Vec2.magnitude sqrt (b2.velocity - b1.velocity) / c < 1 then
                      1 / sqrt (1 - (Vec2.magnitude sqrt (b2.velocity - b1.velocity) / c) ^ 2)
                    else 1e10) - 1) * 0.5
                + (1 / sqrt (1 - (2 * G * b1.mass / c ^ 2)
                                  / (calculate_gravity sqrt G soft b1 b2).2) - 1) * 0.1),
            (calculate_gravity sqrt G soft b1 b2).2)
         else ((calculate_gravity sqrt G soft b1 b2).1,
               (calculate_gravity sqrt G soft b1 b2).2)) := by
  by_cases hd : (calculate_gravity sqrt G soft b1 b2).2 = 0
  · have hN := newtonian_force_zero_of_distance_zero sqrt G soft b1 b2 hd
    have hzero : ∀ s : ℚ, (⟨0, 0⟩ : Vec2) * s = (⟨0, 0⟩ : Vec2) := by
      intro s; apply Vec2.ext <;> simp
    rw [relativistic_calculate_gravity, if_pos hd]
    rw [hd, hN]
    split
    · rw [hzero]
    · rfl
  · rw [relativistic_calculate_gravity, if_neg hd]

/-- C6: the orbital-elements query does return an absent result, leaving the
body untouched, when the central body is missing; but with a central body
present it raises while computing the eccentricity vector (two scalar-times-
vector products with the scalar on the left, and Vector2 has no reflected
multiplication), before returning any elements or mutating any cached field. -/
theorem orbital_elements_raises (sqrt : ℚ → ℚ) (self cb : Body) :
    get_orbital_elements sqrt self none = some (none, self)
    ∧ get_orbital_elements sqrt self (some cb) = none :=
  ⟨rfl, rfl⟩

theorem length_accumulate_pair (f : ℕ × ℕ → Vec2) (forces : List Vec2) (ij : ℕ × ℕ) :
    (accumulate_pair f forces ij).length = forces.length := by
  simp [accumulate_pair]

theorem getElem_accumulate_pair (f : ℕ × ℕ → Vec2) (forces : List Vec2) (p : ℕ × ℕ) (i : ℕ)
    (h1 : p.1 < forces.length) (h2 : p.2 < forces.length) (hne : p.1 ≠ p.2)
    (hi : i < forces.length) :
    ((accumulate_pair f forces p)[i]?).getD 0
      = (forces[i]?).getD 0
        + ((if p.1 = i then f p else 0) + (if p.2 = i then -(f p) else 0)) := by
  simp only [accumulate_pair]
  by_cases hp1 : p.1 = i
  · subst hp1
    have hp2 : p.2 ≠ p.1 := fun h => hne h.symm
    rw [List.getElem?_set_ne hp2, List.getElem?_set_eq_of_lt _ h1]
    simp [hp2]
  · by_cases hp2 : p.2 = i
    · subst hp2
      rw [List.getElem?_set_eq_of_lt _ (by simpa using h2)]
      rw [List.getElem?_set_ne hne]
      simp [hp1, sub_eq_add_neg]
    · rw [List.getElem?_set_ne (fun h => hp2 h), List.getElem?_set_ne (fun h => hp1 h)]
      simp [hp1, hp2]

theorem foldl_accumulate (f : ℕ × ℕ → Vec2) (L : List (ℕ × ℕ)) (init : List Vec2) (i : ℕ)
    (hL : ∀ p ∈ L, p.1 < init.length ∧ p.2 < init.length ∧ p.1 ≠ p.2)
    (hi : i < init.length) :
    ((L.foldl (accumulate_pair f) init)[i]?).getD 0
      = (init[i]?).getD 0
        + (L.map (fun p =>
            (if p.1 = i then f p else 0) + (if p.2 = i then -(f p) else 0))).sum := by
  induction L generalizing init with
  | nil => simp
  | cons p L ih =>
    simp only [List.foldl_cons, List.map_cons, List.sum_cons]
    have hp := hL p (by simp)
    have hlen : (accumulate_pair f init p).length = init.length :=
      length_accumulate_pair f init p
    rw [ih (accumulate_pair f init p)
          (fun q hq => hlen ▸ hL q (List.mem_cons_of_mem _ hq)) (hlen ▸ hi)]
    rw [getElem_accumulate_pair f init p i hp.1 hp.2.1 hp.2.2 hi]
    rw [add_assoc]

theorem mem_pair_list (n : ℕ) (p : ℕ × ℕ) :
    p ∈ pair_list n ↔ p.1 < p.2 ∧ p.2 < n := by
  unfold pair_list
  simp only [List.mem_flatMap, List.mem_map, List.mem_range, List.mem_range'_1]
  constructor
  · rintro ⟨i, hi, j, hj, rfl⟩
    simp only []
    omega
  · rintro ⟨h1, h2⟩
    exact ⟨p.1, by omega, p.2, by omega, rfl⟩

theorem nodup_pair_list (n : ℕ) : (pair_list n).Nodup := by
  unfold pair_list
  rw [List.nodup_flatMap]
  constructor
  · intro i _
    exact (List.nodup_range' _ _ 1 Nat.one_pos).map
      (fun a b h => by simpa using congrArg Prod.snd h)
  · have hpw : (List.range n).Pairwise (· ≠ ·) :=
      (List.pairwise_lt_range n).imp (fun h => Nat.ne_of_lt h)
    refine hpw.imp ?_
    intro a b hab
    intro x hxa hxb
    simp only [List.mem_map, List.mem_range'_1] at hxa hxb
    obtain ⟨j, _, rfl⟩ := hxa
    obtain ⟨k, _, hk⟩ := hxb
    exact hab (by simpa using congrArg Prod.fst hk.symm)

/-- C1: the Newtonian all-pairs loop visits each unordered index pair exactly
once (the pair list has no duplicates and holds precisely the pairs i < j < n)
and the net force on index i is the sum, over the visited pairs, of +force for
the pairs where i is the first member and the exact negation -force for the
pairs where i is the second member, for the pair force computed at whatever
separation the pair has. -/
theorem all_forces_newton_third_law (g : Body → Body → Vec2 × ℚ) (bodies : List Body)
    (i : ℕ) (hi : i < bodies.length) :
    ((calculate_all_forces g bodies)[i]?).getD 0
      = ((pair_list bodies.length).map (fun p =>
            (if p.1 = i then pair_force g bodies p.1 p.2 else 0)
            + (if p.2 = i then -(pair_force g bodies p.1 p.2) else 0))).sum
    ∧ (pair_list bodies.length).Nodup
    ∧ (∀ p : ℕ × ℕ, p ∈ pair_list bodies.length ↔ p.1 < p.2 ∧ p.2 < bodies.length) := by
  refine ⟨?_, nodup_pair_list _, fun p => mem_pair_list _ p⟩
  have hmain := foldl_accumulate
      (fun ij => (g ((bodies[ij.1]?).getD default) ((bodies[ij.2]?).getD default)).1)
      (pair_list bodies.length) (List.replicate bodies.length 0) i
      (fun p hp => by
        have hmem := (mem_pair_list bodies.length p).mp hp
        rw [List.length_replicate]
        exact ⟨by omega, hmem.2, by omega⟩)
      (by rw [List.length_replicate]; exact hi)
  rw [calculate_all_forces, hmain, List.getElem?_replicate, if_pos hi]
  simp [pair_force]

theorem all_forces_newton_third_law_witness :
    0 < [wbody, wbody].length
    ∧ (((calculate_all_forces (calculate_gravity id G_NEWTONIAN 1000) [wbody, wbody])[0]?).getD 0
        = ((pair_list [wbody, wbody].length).map (fun p =>
              (if p.1 = 0 then pair_force (calculate_gravity id G_NEWTONIAN 1000)
                                 [wbody, wbody] p.1 p.2 else 0)
              + (if p.2 = 0 then -(pair_force (calculate_gravity id G_NEWTONIAN 1000)
                                      [wbody, wbody] p.1 p.2) else 0))).sum
       ∧ (pair_list [wbody, wbody].length).Nodup
       ∧ (∀ p : ℕ × ℕ, p ∈ pair_list [wbody, wbody].length
            ↔ p.1 < p.2 ∧ p.2 < [wbody, wbody].length)) :=
  ⟨by norm_num,
   all_forces_newton_third_law (calculate_gravity id G_NEWTONIAN 1000) [wbody, wbody] 0
     (by norm_num)⟩

/-- C7: a running, unpaused engine with an active one-body system whose body
is not fixed and with the registered rk4 integrator selected: the tick
produces no successor state, because the TypeError raised inside the rk4
integrator propagates out of update before the clock advance, contradicting
the claimed unconditional clock advance of a running update. -/
theorem engine_update_rk4_raises :
    wengine_rk4.is_running = true
    ∧ wengine_rk4.is_paused = false
    ∧ wengine_rk4.active_system = some wsystem1
    ∧ ((wsystem1.bodies[0]?).getD default).fixed_position = false
    ∧ registry_find wengine_rk4.integrators wengine_rk4.current_integrator
        = some IntegratorKind.rk4
    ∧ engine_update id wengine_rk4 1 = none :=
  ⟨rfl, rfl, rfl, rfl, rfl, rfl⟩

/-- C4 counterexample: in cex_system the first body's parent is the in-system
body of index 1 whose name is the empty string; serializing and reloading
keeps both bodies (the name is preserved) but drops the parent reference
entirely, because the loader's second pass skips falsy (empty) parent names.
So the reconstructed parent does not resolve to the body of the same name. -/
theorem round_trip_loses_parent :
    ((cex_system.bodies[0]?).getD default).parent = some 1
    ∧ ((cex_system.bodies[1]?).getD default).name = ""
    ∧ (((system_from_dict (system_to_dict cex_system)).bodies[1]?).getD default).name = ""
    ∧ (((system_from_dict (system_to_dict cex_system)).bodies[0]?).getD default).parent
        = none := by
  refine ⟨rfl, rfl, rfl, rfl⟩

theorem parent_update_of_not_fires (table : List (String × ℕ)) (i : ℕ) (d : BodyDict)
    (p0 : Option ℕ) (h : ¬ fires table i d) :
    parent_update table i d p0 = p0 := by
  cases hp : d.parent with
  | none => simp [parent_update, hp]
  | some pname =>
    by_cases hne : pname ≠ ""
    · simp only [parent_update, hp]
      rw [if_pos hne]
      cases hd : dict_get table d.name with
      | none => simp
      | some ti =>
        by_cases hti : ti = i
        · exact absurd ⟨pname, hp, hne, hti ▸ hd⟩ h
        · simp [hti]
    · simp only [parent_update, hp]
      rw [if_neg hne]

theorem parent_update_of_fires (table : List (String × ℕ)) (i : ℕ) (d : BodyDict)
    (p0 : Option ℕ) (pname : String) (hp : d.parent = some pname) (hne : pname ≠ "")
    (hd : dict_get table d.name = some i) :
    parent_update table i d p0 = dict_get table pname := by
  simp only [parent_update, hp, hd]
  rw [if_pos hne]
  simp

theorem parent_after_of_not_fires (table : List (String × ℕ)) (ds : List BodyDict) (i : ℕ)
    (p0 : Option ℕ) (H : ∀ d ∈ ds, ¬ fires table i d) :
    parent_after table ds i p0 = p0 := by
  induction ds generalizing p0 with
  | nil => rfl
  | cons d ds ih =>
    show parent_after table ds i (parent_update table i d p0) = p0
    rw [parent_update_of_not_fires table i d p0 (H d (by simp))]
    exact ih p0 (fun q hq => H q (List.mem_cons_of_mem _ hq))

theorem parent_after_single_fire (table : List (String × ℕ)) (ds : List BodyDict)
    (i i0 : ℕ) (p0 : Option ℕ) (pname : String) (hi0 : i0 < ds.length)
    (H : ∀ k, k < ds.length → (fires table i ((ds[k]?).getD default) ↔ k = i0))
    (hp : ((ds[i0]?).getD default).parent = some pname) :
    parent_after table ds i p0 = dict_get table pname := by
  induction ds generalizing i0 p0 with
  | nil => exact absurd hi0 (by simp)
  | cons d ds ih =>
    cases i0 with
    | zero =>
      have hd0 : (((d :: ds)[0]?).getD default) = d := by simp
      rw [hd0] at hp
      have hfk : fires table i d := by
        have h0 := H 0 (by simp)
        rw [hd0] at h0
        exact h0.mpr rfl
      obtain ⟨pn, hpn, hne, hdict⟩ := hfk
      have hpn2 : pn = pname := by rw [hpn] at hp; exact Option.some.inj hp
      show parent_after table ds i (parent_update table i d p0) = dict_get table pname
      rw [parent_update_of_fires table i d p0 pn hpn hne hdict, hpn2]
      apply parent_after_of_not_fires
      intro q hq hfq
      obtain ⟨k, hk, hkq⟩ := List.getElem_of_mem hq
      have hval : ((ds[k]?).getD default) = q := by
        rw [List.getElem?_eq_getElem hk]
        simpa using hkq
      have hiff := H (k + 1) (by simpa using Nat.succ_lt_succ hk)
      rw [List.getElem?_cons_succ, hval] at hiff
      exact absurd (hiff.mp hfq) (by omega)
    | succ k0 =>
      have hnot : ¬ fires table i d := by
        have h0 := H 0 (by simp)
        rw [show (((d :: ds)[0]?).getD default) = d from by simp] at h0
        intro hf
        exact absurd (h0.mp hf) (by omega)
      show parent_after table ds i (parent_update table i d p0) = dict_get table pname
      rw [parent_update_of_not_fires table i d p0 hnot]
      refine ih k0 p0 (by simpa using hi0) ?_ ?_
      · intro k hk
        have hiff := H (k + 1) (by simpa using Nat.succ_lt_succ hk)
        simpa using hiff
      · simpa using hp

theorem length_from_dict_pass2_step (table : List (String × ℕ)) (bs : List Body)
    (d : BodyDict) : (from_dict_pass2_step table bs d).length = bs.length := by
  unfold from_dict_pass2_step
  repeat' split
  all_goals simp

theorem getElem_from_dict_pass2_step (table : List (String × ℕ)) (bs : List Body)
    (d : BodyDict) (i : ℕ) (hi : i < bs.length) :
    (from_dict_pass2_step table bs d)[i]?
      = some { (bs[i]?).getD default with
               parent := parent_update table i d (((bs[i]?).getD default).parent) } := by
  have hbsi : bs[i]? = some ((bs[i]?).getD default) := by
    rw [List.getElem?_eq_getElem hi]
    rfl
  cases hp : d.parent with
  | none =>
    simp only [from_dict_pass2_step, parent_update, hp]
    exact hbsi
  | some pname =>
    by_cases hne : pname ≠ ""
    · simp only [from_dict_pass2_step, parent_update, hp]
      rw [if_pos hne, if_pos hne]
      cases hd : dict_get table d.name with
      | none => exact hbsi
      | some ti =>
        by_cases hti : ti = i
        · subst hti
          rw [List.getElem?_set_eq_of_lt _ hi]
          simp
        · rw [List.getElem?_set_ne (fun h => hti h), hbsi]
          simp [hti]
    · simp only [from_dict_pass2_step, parent_update, hp]
      rw [if_neg hne, if_neg hne]
      exact hbsi

theorem length_from_dict_pass2 (table : List (String × ℕ)) (ds : List BodyDict)
    (bs : List Body) : (from_dict_pass2 table ds bs).length = bs.length := by
  induction ds generalizing bs with
  | nil => rfl
  | cons d ds ih =>
    show (from_dict_pass2 table ds (from_dict_pass2_step table bs d)).length = bs.length
    rw [ih, length_from_dict_pass2_step]

theorem getElem_from_dict_pass2 (table : List (String × ℕ)) (ds : List BodyDict)
    (bs : List Body) (i : ℕ) (hi : i < bs.length) :
    (from_dict_pass2 table ds bs)[i]?
      = some { (bs[i]?).getD default with
               parent := parent_after table ds i (((bs[i]?).getD default).parent) } := by
  induction ds generalizing bs with
  | nil =>
    show bs[i]? = _
    rw [List.getElem?_eq_getElem hi]
    rfl
  | cons d ds ih =>
    show (from_dict_pass2 table ds (from_dict_pass2_step table bs d))[i]? = _
    rw [ih (from_dict_pass2_step table bs d)
          (by rw [length_from_dict_pass2_step]; exact hi)]
    rw [getElem_from_dict_pass2_step table bs d i hi]
    rfl

theorem add_body_bodies (s : SolarSystem) (b : Body) (c : Bool) :
    ∃ fp, (add_body s b c).bodies = s.bodies ++ [{ b with fixed_position := fp }] := by
  unfold add_body
  split
  · exact ⟨true, rfl⟩
  · exact ⟨b.fixed_position, rfl⟩

theorem from_dict_pass1_spec (ds : List BodyDict) (s : SolarSystem)
    (tab : List (String × ℕ)) :
    (from_dict_pass1 (s, tab) ds).1.bodies.length = s.bodies.length + ds.length
    ∧ (∀ i, i < s.bodies.length →
        (from_dict_pass1 (s, tab) ds).1.bodies[i]? = s.bodies[i]?)
    ∧ (∀ k, k < ds.length →
        body_core_eq
          (((from_dict_pass1 (s, tab) ds).1.bodies[s.bodies.length + k]?).getD default)
          (body_from_dict ((ds[k]?).getD default)))
    ∧ (from_dict_pass1 (s, tab) ds).2
        = ((List.range ds.length).map
            (fun k => (((ds[k]?).getD default).name, s.bodies.length + k))).reverse ++ tab := by
  induction ds generalizing s tab with
  | nil =>
    exact ⟨by simp [from_dict_pass1], fun i hi => rfl,
           fun k hk => absurd hk (by simp), by simp [from_dict_pass1]⟩
  | cons d ds ih =>
    obtain ⟨fp, hfp⟩ := add_body_bodies s (body_from_dict d) false
    have hlen1 : (add_body s (body_from_dict d) false).bodies.length = s.bodies.length + 1 := by
      rw [hfp]; simp
    have hstep : from_dict_pass1 (s, tab) (d :: ds)
        = from_dict_pass1 (add_body s (body_from_dict d) false,
            (d.name, (add_body s (body_from_dict d) false).bodies.length - 1) :: tab) ds := rfl
    obtain ⟨ihlen, ihpre, ihcore, ihtab⟩ :=
      ih (add_body s (body_from_dict d) false)
         ((d.name, (add_body s (body_from_dict d) false).bodies.length - 1) :: tab)
    refine ⟨?_, ?_, ?_, ?_⟩
    · rw [hstep, ihlen, hlen1, List.length_cons]; omega
    · intro i hi
      rw [hstep, ihpre i (by omega)]
      rw [hfp, List.getElem?_append_left hi]
    · intro k hk
      cases k with
      | zero =>
        rw [hstep, Nat.add_zero]
        have hL : s.bodies.length < (add_body s (body_from_dict d) false).bodies.length := by
          omega
        rw [ihpre s.bodies.length hL, hfp, List.getElem?_concat_length]
        rw [show (((d :: ds)[0]?).getD default) = d from by simp]
        exact ⟨rfl, rfl, rfl, rfl, rfl, rfl⟩
      | succ k0 =>
        have := ihcore k0 (by simp only [List.length_cons] at hk; omega)
        rw [hstep]
        rw [show s.bodies.length + (k0 + 1)
              = (add_body s (body_from_dict d) false).bodies.length + k0 from by omega]
        simpa using this
    · rw [hstep, ihtab, hlen1, Nat.add_sub_cancel, List.length_cons]
      rw [List.range_succ_eq_map, List.map_cons, List.reverse_cons, List.map_map]
      rw [List.append_assoc, List.singleton_append]
      congr 2
      all_goals
        first
        | (apply List.map_congr_left
           intro k hk
           simp only [Function.comp_apply, List.getElem?_cons_succ]
           congr 1
           omega)
        | simp

theorem find_unique_key {α : Type} (E : List (String × α)) (nm : String) (v : α)
    (hk : (E.map Prod.fst).Nodup) (hmem : (nm, v) ∈ E) :
    E.find? (fun kv => kv.1 == nm) = some (nm, v) := by
  induction E with
  | nil => simp at hmem
  | cons e E ih =>
    by_cases he : e.1 = nm
    · have hev : e = (nm, v) := by
        rcases List.mem_cons.mp hmem with h | h
        · exact h.symm
        · exfalso
          have hmemk : nm ∈ E.map Prod.fst := List.mem_map.mpr ⟨(nm, v), h, rfl⟩
          have hn := (List.nodup_cons.mp hk).1
          rw [he] at hn
          exact hn hmemk
      rw [List.find?_cons_of_pos _ (by simp [he])]
      rw [hev]
    · rw [List.find?_cons_of_neg _ (by simp [he])]
      refine ih (List.nodup_cons.mp hk).2 ?_
      rcases List.mem_cons.mp hmem with h | h
      · exact absurd (by rw [← h]) he
      · exact h

theorem system_from_dict_bodies (d : SystemDict) :
    (system_from_dict d).bodies
      = from_dict_pass2 (from_dict_pass1 (from_dict_start d, []) d.bodies).2
          d.bodies
          (from_dict_pass1 (from_dict_start d, []) d.bodies).1.bodies := by
  cases hc : d.central_star with
  | none => simp [system_from_dict, hc]
  | some cname => by_cases h : cname ≠ "" <;> simp [system_from_dict, hc, h]

theorem rt_E_len (s : SolarSystem) : (system_to_dict s).bodies.length = s.bodies.length := by
  simp [system_to_dict]

theorem rt_E_get (s : SolarSystem) (k : ℕ) (hk : k < s.bodies.length) :
    (((system_to_dict s).bodies[k]?).getD default)
      = body_to_dict s.bodies ((s.bodies[k]?).getD default) := by
  simp only [system_to_dict, List.getElem?_map, List.getElem?_eq_getElem hk]
  rfl

theorem rt_E_name (s : SolarSystem) (k : ℕ) (hk : k < s.bodies.length) :
    (((system_to_dict s).bodies[k]?).getD default).name
      = ((s.bodies[k]?).getD default).name := by
  rw [rt_E_get s k hk]
  rfl

theorem rt_table (s : SolarSystem) :
    (from_dict_pass1 (from_dict_start (system_to_dict s), []) (system_to_dict s).bodies).2
      = ((List.range s.bodies.length).map
          (fun k => (((s.bodies[k]?).getD default).name, k))).reverse := by
  rw [(from_dict_pass1_spec (system_to_dict s).bodies
        (from_dict_start (system_to_dict s)) []).2.2.2]
  rw [List.append_nil, rt_E_len]
  apply congrArg List.reverse
  apply List.map_congr_left
  intro k hk
  rw [List.mem_range] at hk
  rw [rt_E_name s k hk]
  simp [from_dict_start]

theorem rt_table_mem (s : SolarSystem) (nm : String) (j : ℕ) :
    ((nm, j) ∈ (from_dict_pass1 (from_dict_start (system_to_dict s), [])
                  (system_to_dict s).bodies).2)
      ↔ (j < s.bodies.length ∧ nm = ((s.bodies[j]?).getD default).name) := by
  rw [rt_table, List.mem_reverse, List.mem_map]
  constructor
  · rintro ⟨k, hk, hkj⟩
    rw [List.mem_range] at hk
    have h1 := congrArg Prod.fst hkj
    have h2 := congrArg Prod.snd hkj
    simp only [] at h1 h2
    subst h2
    exact ⟨hk, h1.symm⟩
  · rintro ⟨hj, hnm⟩
    exact ⟨j, List.mem_range.mpr hj, by rw [hnm]⟩

theorem rt_keys_nodup (s : SolarSystem) (hnodup : (s.bodies.map Body.name).Nodup) :
    (((from_dict_pass1 (from_dict_start (system_to_dict s), [])
        (system_to_dict s).bodies).2).map Prod.fst).Nodup := by
  rw [rt_table, List.map_reverse, List.nodup_reverse, List.map_map]
  have heq : ((List.range s.bodies.length).map
        (Prod.fst ∘ fun k => (((s.bodies[k]?).getD default).name, k)))
      = s.bodies.map Body.name := by
    apply List.ext_getElem?
    intro q
    rw [List.getElem?_map, List.getElem?_map]
    by_cases hq : q < s.bodies.length
    · simp [List.getElem?_range hq, List.getElem?_eq_getElem hq]
    · rw [List.getElem?_eq_none (by simpa using Nat.le_of_not_lt hq),
          List.getElem?_eq_none (Nat.le_of_not_lt hq)]
      rfl
  rw [heq]
  exact hnodup

theorem rt_dget (s : SolarSystem) (hnodup : (s.bodies.map Body.name).Nodup)
    (j : ℕ) (hj : j < s.bodies.length) :
    dict_get (from_dict_pass1 (from_dict_start (system_to_dict s), [])
        (system_to_dict s).bodies).2 (((s.bodies[j]?).getD default).name) = some j := by
  unfold dict_get
  rw [find_unique_key _ _ j (rt_keys_nodup s hnodup) ((rt_table_mem s _ j).mpr ⟨hj, rfl⟩)]
  rfl

theorem rt_dget_inv (s : SolarSystem) (nm : String) (j : ℕ)
    (h : dict_get (from_dict_pass1 (from_dict_start (system_to_dict s), [])
           (system_to_dict s).bodies).2 nm = some j) :
    j < s.bodies.length ∧ nm = ((s.bodies[j]?).getD default).name := by
  unfold dict_get at h
  obtain ⟨kv, hfind, hsnd⟩ := Option.map_eq_some'.mp h
  have hfst : kv.1 = nm := by simpa using List.find?_some hfind
  have hmem := List.mem_of_find?_eq_some hfind
  refine (rt_table_mem s nm j).mp ?_
  cases kv with
  | mk a b =>
    simp only [] at hfst hsnd
    subst hfst
    subst hsnd
    exact hmem

theorem rt_name_inj (s : SolarSystem) (hnodup : (s.bodies.map Body.name).Nodup)
    (j k : ℕ) (hj : j < s.bodies.length) (hk : k < s.bodies.length)
    (hname : ((s.bodies[j]?).getD default).name = ((s.bodies[k]?).getD default).name) :
    j = k := by
  have hjm : j < (s.bodies.map Body.name).length := by simpa using hj
  have heq2 : (s.bodies.map Body.name)[j]? = (s.bodies.map Body.name)[k]? := by
    rw [List.getElem?_map, List.getElem?_map, List.getElem?_eq_getElem hj,
        List.getElem?_eq_getElem hk]
    rw [List.getElem?_eq_getElem hj, List.getElem?_eq_getElem hk] at hname
    simpa using hname
  exact List.getElem?_inj hjm hnodup heq2

theorem rt_s1_len (s : SolarSystem) :
    (from_dict_pass1 (from_dict_start (system_to_dict s), [])
      (system_to_dict s).bodies).1.bodies.length = s.bodies.length := by
  rw [(from_dict_pass1_spec (system_to_dict s).bodies
        (from_dict_start (system_to_dict s)) []).1, rt_E_len]
  simp [from_dict_start]

theorem rt_s1_core (s : SolarSystem) (k : ℕ) (hk : k < s.bodies.length) :
    body_core_eq
      (((from_dict_pass1 (from_dict_start (system_to_dict s), [])
          (system_to_dict s).bodies).1.bodies[k]?).getD default)
      (body_from_dict (((system_to_dict s).bodies[k]?).getD default)) := by
  have hcore := (from_dict_pass1_spec (system_to_dict s).bodies
      (from_dict_start (system_to_dict s)) []).2.2.1 k (by rw [rt_E_len]; exact hk)
  have hz : (from_dict_start (system_to_dict s)).bodies.length = 0 := rfl
  rw [hz, Nat.zero_add] at hcore
  exact hcore

theorem rt_body_mem (s : SolarSystem) (i : ℕ) (hi : i < s.bodies.length) :
    ((s.bodies[i]?).getD default) ∈ s.bodies := by
  rw [List.getElem?_eq_getElem hi]
  exact List.getElem_mem hi

theorem rt_E_parent_some (s : SolarSystem) (i p : ℕ) (hi : i < s.bodies.length)
    (hpar : ∀ b ∈ s.bodies, ∀ q, b.parent = some q → q < s.bodies.length)
    (hp : ((s.bodies[i]?).getD default).parent = some p) :
    p < s.bodies.length
    ∧ (((system_to_dict s).bodies[i]?).getD default).parent
        = some (((s.bodies[p]?).getD default).name) := by
  have hpn : p < s.bodies.length := hpar _ (rt_body_mem s i hi) p hp
  refine ⟨hpn, ?_⟩
  rw [rt_E_get s i hi]
  simp only [body_to_dict, hp, Option.some_bind]
  rw [List.getElem?_eq_getElem hpn]
  rfl

theorem rt_E_parent_none (s : SolarSystem) (i : ℕ) (hi : i < s.bodies.length)
    (hp : ((s.bodies[i]?).getD default).parent = none) :
    (((system_to_dict s).bodies[i]?).getD default).parent = none := by
  rw [rt_E_get s i hi]
  simp [body_to_dict, hp]

theorem rt_fires_imp (s : SolarSystem) (hnodup : (s.bodies.map Body.name).Nodup)
    (k i : ℕ) (hk : k < s.bodies.length) (hi : i < s.bodies.length)
    (hf : fires (from_dict_pass1 (from_dict_start (system_to_dict s), [])
            (system_to_dict s).bodies).2 i
            (((system_to_dict s).bodies[k]?).getD default)) :
    k = i := by
  obtain ⟨pname, _, _, hdict⟩ := hf
  have hinv := rt_dget_inv s _ i hdict
  refine rt_name_inj s hnodup k i hk hi ?_
  rw [← rt_E_name s k hk]
  exact hinv.2

theorem rt_parent_final (s : SolarSystem)
    (hne : ∀ b ∈ s.bodies, b.name ≠ "")
    (hnodup : (s.bodies.map Body.name).Nodup)
    (hpar : ∀ b ∈ s.bodies, ∀ q, b.parent = some q → q < s.bodies.length)
    (i : ℕ) (hi : i < s.bodies.length) :
    parent_after (from_dict_pass1 (from_dict_start (system_to_dict s), [])
        (system_to_dict s).bodies).2 (system_to_dict s).bodies i none
      = ((s.bodies[i]?).getD default).parent := by
  cases hp : ((s.bodies[i]?).getD default).parent with
  | none =>
    apply parent_after_of_not_fires
    intro q hq hf
    obtain ⟨k, hk, hkq⟩ := List.getElem_of_mem hq
    have hkn : k < s.bodies.length := by rw [← rt_E_len s]; exact hk
    have hval : (((system_to_dict s).bodies[k]?).getD default) = q := by
      rw [List.getElem?_eq_getElem hk]
      simpa using hkq
    have hki : k = i := rt_fires_imp s hnodup k i hkn hi (by rw [hval]; exact hf)
    subst hki
    have hnone := rt_E_parent_none s k hi hp
    obtain ⟨pname, hpn, _, _⟩ := hf
    rw [← hval] at hpn
    rw [hnone] at hpn
    exact Option.noConfusion hpn
  | some p =>
    obtain ⟨hpn, hEp⟩ := rt_E_parent_some s i p hi hpar hp
    rw [parent_after_single_fire _ _ i i none (((s.bodies[p]?).getD default).name)
          (by rw [rt_E_len]; exact hi) ?_ hEp]
    · exact rt_dget s hnodup p hpn
    · intro k hk
      have hkn : k < s.bodies.length := by rw [← rt_E_len s]; exact hk
      constructor
      · exact fun hf => rt_fires_imp s hnodup k i hkn hi hf
      · rintro rfl
        refine ⟨((s.bodies[p]?).getD default).name, hEp, ?_, ?_⟩
        · exact hne _ (rt_body_mem s p hpn)
        · rw [rt_E_name s k hkn]
          exact rt_dget s hnodup k hkn

/-- C4 (amended): for a system whose body names are nonempty and pairwise
distinct and whose parent references point into the system, serializing and
reloading through the two-pass loader preserves length, the per-body
name/mass/position/velocity/color fields, and every parent reference, which
therefore resolves to the reconstructed body of the original parent's name —
including when a parent appears later in the body list than its child. -/
theorem round_trip_preserves_system (s : SolarSystem)
    (hne : ∀ b ∈ s.bodies, b.name ≠ "")
    (hnodup : (s.bodies.map Body.name).Nodup)
    (hpar : ∀ b ∈ s.bodies, ∀ q, b.parent = some q → q < s.bodies.length) :
    (system_from_dict (system_to_dict s)).bodies.length = s.bodies.length
    ∧ (∀ i, i < s.bodies.length →
        body_core_eq (((system_from_dict (system_to_dict s)).bodies[i]?).getD default)
          ((s.bodies[i]?).getD default))
    ∧ (∀ i p, i < s.bodies.length → ((s.bodies[i]?).getD default).parent = some p →
        (((system_from_dict (system_to_dict s)).bodies[i]?).getD default).parent = some p
        ∧ p < (system_from_dict (system_to_dict s)).bodies.length
        ∧ (((system_from_dict (system_to_dict s)).bodies[p]?).getD default).name
            = ((s.bodies[p]?).getD default).name) := by
  have hb := system_from_dict_bodies (system_to_dict s)
  have hlen : (system_from_dict (system_to_dict s)).bodies.length = s.bodies.length := by
    rw [hb, length_from_dict_pass2, rt_s1_len]
  have hget : ∀ i, i < s.bodies.length →
      ((system_from_dict (system_to_dict s)).bodies[i]?)
        = some { ((from_dict_pass1 (from_dict_start (system_to_dict s), [])
                    (system_to_dict s).bodies).1.bodies[i]?).getD default with
                 parent := ((s.bodies[i]?).getD default).parent } := by
    intro i hi
    rw [hb, getElem_from_dict_pass2 _ _ _ i (by rw [rt_s1_len]; exact hi)]
    have hparent_none :
        (((from_dict_pass1 (from_dict_start (system_to_dict s), [])
            (system_to_dict s).bodies).1.bodies[i]?).getD default).parent = none := by
      rw [(rt_s1_core s i hi).2.2.2.2.2]
      rfl
    rw [hparent_none, rt_parent_final s hne hnodup hpar i hi]
  have hcoreAll : ∀ i, i < s.bodies.length →
      body_core_eq (((system_from_dict (system_to_dict s)).bodies[i]?).getD default)
        ((s.bodies[i]?).getD default) := by
    intro i hi
    rw [hget i hi]
    have hcore := rt_s1_core s i hi
    refine ⟨?_, ?_, ?_, ?_, ?_, rfl⟩
    · exact hcore.1.trans (by rw [rt_E_get s i hi]; rfl)
    · exact hcore.2.1.trans (by rw [rt_E_get s i hi]; rfl)
    · exact hcore.2.2.1.trans (by rw [rt_E_get s i hi]; rfl)
    · exact hcore.2.2.2.1.trans (by rw [rt_E_get s i hi]; rfl)
    · exact hcore.2.2.2.2.1.trans (by rw [rt_E_get s i hi]; rfl)
  refine ⟨hlen, hcoreAll, ?_⟩
  intro i p hi hp
  have hpn : p < s.bodies.length := hpar _ (rt_body_mem s i hi) p hp
  refine ⟨?_, ?_, (hcoreAll p hpn).1⟩
  · rw [(hcoreAll i hi).2.2.2.2.2]
    exact hp
  · rw [hlen]
    exact hpn

theorem round_trip_preserves_system_witness :
    (∀ b ∈ rt_system.bodies, b.name ≠ "")
    ∧ (rt_system.bodies.map Body.name).Nodup
    ∧ (∀ b ∈ rt_system.bodies, ∀ q, b.parent = some q → q < rt_system.bodies.length)
    ∧ ((system_from_dict (system_to_dict rt_system)).bodies.length = rt_system.bodies.length
       ∧ (∀ i, i < rt_system.bodies.length →
           body_core_eq
             (((system_from_dict (system_to_dict rt_system)).bodies[i]?).getD default)
             ((rt_system.bodies[i]?).getD default))
       ∧ (∀ i p, i < rt_system.bodies.length →
           ((rt_system.bodies[i]?).getD default).parent = some p →
           (((system_from_dict (system_to_dict rt_system)).bodies[i]?).getD default).parent
               = some p
           ∧ p < (system_from_dict (system_to_dict rt_system)).bodies.length
           ∧ (((system_from_dict (system_to_dict rt_system)).bodies[p]?).getD default).name
               = ((rt_system.bodies[p]?).getD default).name)) := by
  have h1 : ∀ b ∈ rt_system.bodies, b.name ≠ "" := by decide
  have h2 : (rt_system.bodies.map Body.name).Nodup := by decide
  have h3 : ∀ b ∈ rt_system.bodies, ∀ q, b.parent = some q → q < rt_system.bodies.length := by
    intro b hb q hq
    fin_cases hb <;> simp_all [rt_system, body_init] <;> omega
  exact ⟨h1, h2, h3, round_trip_preserves_system rt_system h1 h2 h3⟩
